import Mathlib

/-!
Shallow embedding of `compiler/rustc_driver/src/data_wrapper.rs`: the MIR
snapshot extractor (statement/terminator converters, the constant string
resolver `str_const_from_operand` and the block string harvester
`get_bb_refed_strs`), together with the parts of the compiler IR the
extractor inspects (operands, rvalues, statement and terminator kinds,
allocations, promoted-body tables).

Machine integers are modelled as `Nat`: every integer the code touches is a
block index, byte offset or length, on which no overflowing arithmetic is
performed.  The `.unwrap()` on the raw allocation read (the only panic site)
is modelled by an `Except` result.  Recursion into promoted bodies is only
bounded by the driver-guaranteed acyclicity of the promotion table (spec
section 5), so the embedding carries an explicit fuel that decreases exactly
at that descent; exhausted fuel (reachable only on inputs on which the Rust
code would not terminate) yields "no string".
-/

/-- One byte of input, 0..255. -/
abbrev Byte := Nat

/-- The Unicode replacement character U+FFFD. -/
def replChar : Char := Char.ofNat 0xFFFD

/-- State of the UTF-8 decoding automaton: `need` continuation bytes are
still expected (0 = between characters), `acc` holds the code-point bits
accumulated so far, and the next byte must lie in `lo..hi` (after the first
continuation byte the range is always `0x80..0xBF`; the first one is
constrained further by the lead byte, as in `core::str`'s validation). -/
structure Utf8State where
  need : Nat
  acc : Nat
  lo : Byte
  hi : Byte
deriving DecidableEq, Repr

/-- The between-characters state. -/
def utf8Ground : Utf8State := ⟨0, 0, 0x80, 0xBF⟩

/-- Process `b` as the first byte of a new character: emit an ASCII char, a
replacement character (invalid lead byte), or enter a multi-byte state.
The lead-byte classification is exactly `core::str::run_utf8_validation`'s:
2-byte leads are `0xC2..0xDF`; the first continuation of `0xE0` is
`0xA0..0xBF`, of `0xED` is `0x80..0x9F`, of `0xF0` is `0x90..0xBF`, of
`0xF4` is `0x80..0x8F`. -/
def utf8Lead (b : Byte) : List Char × Utf8State :=
  if b < 0x80 then ([Char.ofNat b], utf8Ground)
  else if 0xC2 ≤ b && b ≤ 0xDF then ([], ⟨1, b - 0xC0, 0x80, 0xBF⟩)
  else if b == 0xE0 then ([], ⟨2, 0, 0xA0, 0xBF⟩)
  else if 0xE1 ≤ b && b ≤ 0xEC then ([], ⟨2, b - 0xE0, 0x80, 0xBF⟩)
  else if b == 0xED then ([], ⟨2, 0xD, 0x80, 0x9F⟩)
  else if 0xEE ≤ b && b ≤ 0xEF then ([], ⟨2, b - 0xE0, 0x80, 0xBF⟩)
  else if b == 0xF0 then ([], ⟨3, 0, 0x90, 0xBF⟩)
  else if 0xF1 ≤ b && b ≤ 0xF3 then ([], ⟨3, b - 0xF0, 0x80, 0xBF⟩)
  else if b == 0xF4 then ([], ⟨3, 4, 0x80, 0x8F⟩)
  else ([replChar], utf8Ground)

/-- Run the decoding automaton.  On an out-of-range continuation byte the
pending (valid) prefix of the sequence is replaced by a single U+FFFD and
scanning resumes at the offending byte, which is Rust's `error_len`
skipping discipline; a sequence left incomplete at end of input becomes a
single U+FFFD. -/
def utf8Run : Utf8State → List Byte → List Char
  | st, [] => if st.need == 0 then [] else [replChar]
  | st, b :: rest =>
    if st.need == 0 then
      let p := utf8Lead b
      p.1 ++ utf8Run p.2 rest
    else if st.lo ≤ b && b ≤ st.hi then
      if st.need == 1 then
        Char.ofNat (st.acc * 0x40 + (b - 0x80)) :: utf8Run utf8Ground rest
      else
        utf8Run ⟨st.need - 1, st.acc * 0x40 + (b - 0x80), 0x80, 0xBF⟩ rest
    else
      let p := utf8Lead b
      replChar :: (p.1 ++ utf8Run p.2 rest)

/-- Model of Rust `String::from_utf8_lossy`: decode a byte sequence as
UTF-8, substituting U+FFFD for each maximal invalid subpart.  Total:
decoding never fails. -/
def utf8Lossy (bs : List Byte) : List Char := utf8Run utf8Ground bs

/-! ## IR data model (the fragments of `rustc_middle` the extractor inspects) -/

/-- A basic-block index (`rustc_middle::mir::BasicBlock`), a newtype over
the raw `u32` index. -/
structure BasicBlock where
  index : Nat
deriving DecidableEq, Repr

/-- Model of `BasicBlock::as_u32`. -/
def BasicBlock.as_u32 (b : BasicBlock) : Nat := b.index

/-- A local variable index (`rustc_middle::mir::Local`). -/
structure Local where
  index : Nat
deriving DecidableEq, Repr

/-- A place (`rustc_middle::mir::Place`): base local (the source field
`local`; renamed, `local` is a Lean keyword); projections are never
inspected by the extractor and appear only through debug formatting, so
they are kept as an opaque count. -/
structure Place where
  base_local : Local
  projections : Nat
deriving DecidableEq, Repr

/-- Model of `rustc_middle::mir::SwitchTargets`: the value list and the target list;
by construction the target list carries one block per value plus the
trailing "otherwise" block, and `all_targets` returns the whole list. -/
structure SwitchTargets where
  values : List Nat
  targets : List BasicBlock
deriving DecidableEq, Repr

/-- Model of `SwitchTargets::all_targets`: the full ordered target list, including
the trailing "otherwise" target. -/
def SwitchTargets.all_targets (t : SwitchTargets) : List BasicBlock := t.targets

/-- The type structure the resolver inspects (`rustc_middle::ty::TyKind`):
only `Ref` (whose region and mutability the code ignores) and `Str` are
matched on; every other type kind takes the fall-through path. -/
inductive TyKind where
  | ref (inner : TyKind)
  | str
  | uint
  | int
  | slice (elem : TyKind)
  | array (elem : TyKind) (len : Nat)
  | otherTy
deriving DecidableEq, Repr

/-- A memory allocation (`rustc_middle::mir::interpret::Allocation`): the
backing byte buffer.  Init-mask and relocation structure are not modelled:
the spec names the out-of-bounds read as the read's only failure mode. -/
structure Allocation where
  bytes : List Byte
deriving DecidableEq, Repr

/-- Model of `Allocation::get_bytes` over an `AllocRange` of `start`/`size`: the raw
bytes when the range is in bounds, `none` (an interpreter error, unwrapped
to a panic by the caller) otherwise. -/
def Allocation.get_bytes (a : Allocation) (start size : Nat) : Option (List Byte) :=
  if start + size ≤ a.bytes.length then some ((a.bytes.drop start).take size) else none

/-- Model of `rustc_middle::mir::interpret::ConstValue`.  In `Slice`, the source
field `end` is renamed `stop` (`end` is a Lean keyword). -/
inductive ConstValue where
  | scalar (n : Nat)
  | slice (data : Allocation) (start : Nat) (stop : Nat)
  | byRef (data : Allocation) (offset : Nat)
deriving DecidableEq, Repr

/-- Model of `ty::Unevaluated`: an unevaluated constant, optionally naming a
promoted sub-body of the enclosing body by its promotion index. -/
structure Unevaluated where
  promoted : Option Nat
deriving DecidableEq, Repr

/-- Model of `rustc_middle::ty::ConstKind`, as far as the resolver matches on it:
`Unevaluated` is inspected, every other kind falls through. -/
inductive TyConstKind where
  | unevaluated (u : Unevaluated)
  | value (v : ConstValue)
  | param
  | otherConst
deriving DecidableEq, Repr

/-- Model of `rustc_middle::ty::Const` (`cst` in the source): `val` and `ty`
projections. -/
structure TyConst where
  val : TyConstKind
  ty : TyKind
deriving DecidableEq, Repr

/-- Model of `rustc_middle::mir::ConstantKind`: either an already-evaluated value
with its type, or a `ty::Const`. -/
inductive ConstantKind where
  | val (v : ConstValue) (ty : TyKind)
  | ty (cst : TyConst)
deriving DecidableEq, Repr

/-- Model of `rustc_middle::mir::Operand`; a `Constant` operand's `literal` field is
its `ConstantKind`. -/
inductive Operand where
  | copy (p : Place)
  | move (p : Place)
  | constant (literal : ConstantKind)
deriving DecidableEq, Repr

/-- Model of `rustc_middle::mir::Rvalue`, as far as the harvester matches on it.
The harvested shapes keep exactly the operands the source inspects
(`Use`, `Repeat`, `Cast`, `BinaryOp`'s left/right pair, `Aggregate`'s
element list); the remaining constructors model the `_ => None` arm,
including `CheckedBinaryOp` and `UnaryOp`, whose operands the source does
not search. -/
inductive Rvalue where
  | use (opr : Operand)
  | «repeat» (opr : Operand) (count : Nat)
  | cast (kind : Nat) (opr : Operand) (ty : TyKind)
  | binaryOp (op : Nat) (ops : Operand × Operand)
  | aggregate (kind : Nat) (elems : List Operand)
  | checkedBinaryOp (op : Nat) (ops : Operand × Operand)
  | unaryOp (op : Nat) (opr : Operand)
  | ref (p : Place)
  | len (p : Place)
  | discriminant (p : Place)
  | otherRvalue
deriving DecidableEq, Repr

/-- Model of `rustc_middle::mir::StatementKind`, with the five kinds the converter
renders structurally plus the remaining kinds of this compiler version,
which all take the `_` fall-through arm. -/
inductive StatementKind where
  | assign (b : Place × Rvalue)
  | fakeRead (b : Nat × Place)
  | storageLive (l : Local)
  | storageDead (l : Local)
  | setDiscriminant (place : Place) (variant_index : Nat)
  | retag
  | ascribeUserType
  | coverage
  | copyNonOverlapping
  | nop
deriving DecidableEq, Repr

/-- Model of `rustc_middle::mir::Statement`: the extractor reads only `kind`. -/
structure Statement where
  kind : StatementKind
deriving DecidableEq, Repr

/-- Model of `rustc_middle::mir::terminator::TerminatorKind`.  Fields the converter
ignores (drop places, assert expectation and message, switch discriminant,
call destination place, asm template) are kept where they are cheap to
carry and irrelevant to conversion. -/
inductive TerminatorKind where
  | goto (target : BasicBlock)
  | switchInt (discr : Operand) (targets : SwitchTargets)
  | resume
  | abort
  | ret
  | unreachable
  | drop (place : Place) (target : BasicBlock) (unwind : Option BasicBlock)
  | dropAndReplace (place : Place) (value : Operand) (target : BasicBlock)
      (unwind : Option BasicBlock)
  | call (func : Operand) (args : List Operand) (destination : Place)
      (target : Option BasicBlock) (cleanup : Option BasicBlock)
  | assert (cond : Operand) (expected : Bool) (target : BasicBlock)
      (cleanup : Option BasicBlock)
  | yield (value : Operand) (resume : BasicBlock) (drop : Option BasicBlock)
  | generatorDrop
  | falseEdge (real_target : BasicBlock) (imaginary_target : BasicBlock)
  | falseUnwind (real_target : BasicBlock) (unwind : Option BasicBlock)
  | inlineAsm (destination : Option BasicBlock)
deriving DecidableEq, Repr

/-- Model of `rustc_middle::mir::Terminator`: the extractor reads only `kind`.
(`BasicBlockData::terminator()` asserts the option rustc stores internally
is filled, which holds for every finished body the driver hands over.) -/
structure Terminator where
  kind : TerminatorKind
deriving DecidableEq, Repr

/-- Model of `rustc_middle::mir::BasicBlockData`: statement list, terminator and the
cleanup flag. -/
structure BasicBlockData where
  statements : List Statement
  terminator : Terminator
  is_cleanup : Bool
deriving DecidableEq, Repr

/-- A MIR body, as far as the extractor reads it: its basic-block list in
enumeration order (`Body::basic_blocks()`). -/
structure Body where
  basic_blocks : List BasicBlockData
deriving DecidableEq, Repr

/-- The promoted-body table (`promoted_mir`, an `IndexVec<Promoted, Body>`):
`get` by promotion index returns `none` past the end. -/
def promoted_mir := List Body

/-- Model of `IndexVec::get`: the body at a promotion index, if present. -/
def promGet (prom : promoted_mir) (i : Nat) : Option Body := List.get? prom i

/-! ## Debug-formatting model

The source renders places, operands and rvalues with `format!` and the
compiler's derived `Debug` instances, which live outside this crate.  Spec
section 9 fixes only that the projection is a deterministic, lossy,
human-readable string; the functions below are that projection, structural
and deterministic per input. -/

/-- Debug rendering of a `Local` (rustc prints `_3`). -/
def Local.debugFmt (l : Local) : String := "_" ++ toString l.index

/-- Debug rendering of a `Place`. -/
def Place.debugFmt (p : Place) : String :=
  p.base_local.debugFmt ++ String.join (List.replicate p.projections ".p")

/-- Debug rendering of a `ConstantKind` (shape only). -/
def ConstantKind.debugFmt : ConstantKind → String
  | .val (.scalar n) _ => "const scalar " ++ toString n
  | .val (.slice _ start stop) _ =>
      "const slice " ++ toString start ++ ".." ++ toString stop
  | .val (.byRef _ off) _ => "const byref " ++ toString off
  | .ty ⟨.unevaluated ⟨some i⟩, _⟩ => "const promoted " ++ toString i
  | .ty ⟨.unevaluated ⟨none⟩, _⟩ => "const unevaluated"
  | .ty _ => "const ty"

/-- Debug rendering of an `Operand`. -/
def Operand.debugFmt : Operand → String
  | .copy p => "copy " ++ p.debugFmt
  | .move p => "move " ++ p.debugFmt
  | .constant c => c.debugFmt

/-- Debug rendering of an `Rvalue`. -/
def Rvalue.debugFmt : Rvalue → String
  | .use opr => "Use " ++ opr.debugFmt
  | .«repeat» opr n => "Repeat " ++ opr.debugFmt ++ " x" ++ toString n
  | .cast _ opr _ => "Cast " ++ opr.debugFmt
  | .binaryOp op ops => "BinOp " ++ toString op ++ " " ++ ops.1.debugFmt ++ " " ++ ops.2.debugFmt
  | .aggregate _ elems => "Aggregate of " ++ toString elems.length
  | .checkedBinaryOp op ops =>
      "CheckedBinOp " ++ toString op ++ " " ++ ops.1.debugFmt ++ " " ++ ops.2.debugFmt
  | .unaryOp op opr => "UnOp " ++ toString op ++ " " ++ opr.debugFmt
  | .ref p => "Ref " ++ p.debugFmt
  | .len p => "Len " ++ p.debugFmt
  | .discriminant p => "Discriminant " ++ p.debugFmt
  | .otherRvalue => "OtherRvalue"

/-- Debug rendering of a whole `StatementKind`: the generic dump the
converter's `_ => format!` fall-through arm produces. -/
def StatementKind.debugFmt : StatementKind → String
  | .assign b => "Assign(" ++ b.1.debugFmt ++ ", " ++ b.2.debugFmt ++ ")"
  | .fakeRead b => "FakeRead(" ++ toString b.1 ++ ", " ++ b.2.debugFmt ++ ")"
  | .storageLive l => "StorageLive(" ++ l.debugFmt ++ ")"
  | .storageDead l => "StorageDead(" ++ l.debugFmt ++ ")"
  | .setDiscriminant p v => "SetDiscriminant(" ++ p.debugFmt ++ ", " ++ toString v ++ ")"
  | .retag => "Retag"
  | .ascribeUserType => "AscribeUserType"
  | .coverage => "Coverage"
  | .copyNonOverlapping => "CopyNonOverlapping"
  | .nop => "Nop"

/-! ## Snapshot model (`MirStatement`, `MirTerminator`, `MirBasicBlock`) -/

/-- Model of `pub struct MirStatement(String)`. -/
structure MirStatement where
  expr : String
deriving DecidableEq, Repr

/-- Model of `pub enum MirTerminator`: the closed tagged union of the snapshot,
carrying raw `u32` indices, optional indices and descriptive strings.
The source variant `Return` is named `ret` (`return` is a Lean keyword). -/
inductive MirTerminator where
  | goto (target : Nat)
  | switchInt (targets : List Nat)
  | resume
  | abort
  | ret
  | unreachable
  | drop (target : Nat) (unwind : Option Nat)
  | dropAndReplace (target : Nat) (unwind : Option Nat)
  | call (func : String) (args : List String) (dest : Option Nat) (cleanup : Option Nat)
  | assert (cond : String) (target : Nat) (cleanup : Option Nat)
  | yield (val : String) (resume : Nat) (drop : Option Nat)
  | generatorDrop
  | falseEdge (real_target : Nat) (imaginary_target : Nat)
  | falseUnwind (real_target : Nat) (unwind : Option Nat)
  | inlineAsm (dest : Option Nat)
deriving DecidableEq, Repr

/-- Model of `pub struct MirBasicBlock`. -/
structure MirBasicBlock where
  statements : List MirStatement
  term : MirTerminator
  is_cleanup : Bool
  ref_strs : List String
deriving DecidableEq, Repr

/-- Model of `impl From<&StatementKind> for MirStatement` (`data_wrapper.rs` lines
86-98): the five recognized kinds get a kind-tagged rendering, everything
else falls through to the generic dump. -/
def MirStatement.fromKind (k : StatementKind) : MirStatement :=
  let expr := match k with
    | .assign b => "assign " ++ b.1.debugFmt ++ " = " ++ b.2.debugFmt
    | .fakeRead b => "fake " ++ b.2.debugFmt
    | .storageLive l => "sl " ++ l.debugFmt
    | .storageDead l => "sd " ++ l.debugFmt
    | .setDiscriminant place variant_index =>
        "set " ++ place.debugFmt ++ " " ++ toString variant_index
    | k => k.debugFmt
  ⟨expr⟩

/-- Model of `impl From<&TerminatorKind> for MirTerminator` (`data_wrapper.rs` lines
100-173): one snapshot variant per terminator kind, indices via `as_u32`,
optional handler edges via `Option::map`, descriptive fields via debug
formatting. -/
def MirTerminator.fromKind : TerminatorKind → MirTerminator
  | .goto target => .goto target.as_u32
  | .switchInt _ targets =>
      .switchInt (targets.all_targets.map (fun x => x.as_u32))
  | .resume => .resume
  | .abort => .abort
  | .ret => .ret
  | .unreachable => .unreachable
  | .drop _ target unwind =>
      .drop target.as_u32 (unwind.map (fun x => x.as_u32))
  | .dropAndReplace _ _ target unwind =>
      .dropAndReplace target.as_u32 (unwind.map (fun x => x.as_u32))
  | .call func args _ target cleanup =>
      .call func.debugFmt (args.map (fun x => x.debugFmt))
        (target.map (fun x => x.as_u32)) (cleanup.map (fun x => x.as_u32))
  | .assert cond _ target cleanup =>
      .assert cond.debugFmt target.as_u32 (cleanup.map (fun x => x.as_u32))
  | .yield v r d =>
      .yield v.debugFmt r.as_u32 (d.map (fun x => x.as_u32))
  | .generatorDrop => .generatorDrop
  | .falseEdge real_target imaginary_target =>
      .falseEdge real_target.as_u32 imaginary_target.as_u32
  | .falseUnwind real_target unwind =>
      .falseUnwind real_target.as_u32 (unwind.map (fun x => x.as_u32))
  | .inlineAsm destination => .inlineAsm (destination.map (fun x => x.as_u32))

/-! ## Constant string resolver and block string harvester

The Rust pair `str_const_from_operand` / `get_bb_refed_strs` is mutually
recursive through the promoted-body table; the recursion is bounded only by
the driver's acyclicity guarantee on that table (spec section 5).  The
embedding therefore parameterizes the harvesting combinators by the operand
resolver they use, and ties the knot in `str_const_from_operand` by
structural recursion on an explicit fuel that decreases exactly at the
descent into a promoted body: with exhausted fuel (reachable only where the
Rust code would recurse forever) the promoted case yields "no string". -/

/-- The single fatal condition of the extraction pass: the `.unwrap()` on
`Allocation::get_bytes` when the requested byte range is out of bounds of
the backing allocation. -/
inductive ExtractErr where
  | allocOutOfBounds (start size len : Nat)
deriving DecidableEq, Repr

deriving instance DecidableEq for Except

/-- A resolver: what `str_const_from_operand` provides once its `tyctxt`
and `prom` arguments are fixed. -/
abbrev Resolver := Operand → Except ExtractErr (Option String)

/-- Model of `iter().filter_map(|opr| str_const_from_operand(..)).collect()`: the
resolved strings of an operand list, in order, non-resolving operands
skipped, a panic propagated. -/
def opr_list_strs (resolve : Resolver) : List Operand → Except ExtractErr (List String)
  | [] => .ok []
  | opr :: rest =>
    match resolve opr with
    | .error e => .error e
    | .ok none => opr_list_strs resolve rest
    | .ok (some s) =>
      match opr_list_strs resolve rest with
      | .error e => .error e
      | .ok tail => .ok (s :: tail)

/-- The per-assignment right-hand-side arm of the harvester's `filter_map`
(`data_wrapper.rs` lines 277-291): `Use`/`Repeat`/`Cast` resolve their
operand, `BinaryOp` its left operand only, `Aggregate` joins every
resolving element with no separator (nothing when no element resolves);
every other shape contributes nothing. -/
def rvalue_str (resolve : Resolver) : Rvalue → Except ExtractErr (Option String)
  | .use opr => resolve opr
  | .«repeat» opr _ => resolve opr
  | .cast _ opr _ => resolve opr
  | .binaryOp _ ops => resolve ops.1
  | .aggregate _ v =>
    match opr_list_strs resolve v with
    | .error e => .error e
    | .ok str_vec =>
      if str_vec.length > 0 then .ok (some (String.join str_vec)) else .ok none
  | _ => .ok none

/-- The statement half of the harvester (`data_wrapper.rs` lines 274-295):
`filter_map` over the block's statements, keeping assignments whose
right-hand side yields a string. -/
def stmt_list_strs (resolve : Resolver) : List Statement → Except ExtractErr (List String)
  | [] => .ok []
  | stmt :: rest =>
    match stmt.kind with
    | .assign b =>
      match rvalue_str resolve b.2 with
      | .error e => .error e
      | .ok none => stmt_list_strs resolve rest
      | .ok (some s) =>
        match stmt_list_strs resolve rest with
        | .error e => .error e
        | .ok tail => .ok (s :: tail)
    | _ => stmt_list_strs resolve rest

/-- Model of `get_bb_refed_strs` with the resolver abstracted (`data_wrapper.rs`
lines 272-302): the statement strings in statement order, then, when the
terminator is a call, each resolving call argument appended as its own
entry, in argument order. -/
def get_bb_strs (resolve : Resolver) (bb : BasicBlockData) : Except ExtractErr (List String) :=
  match stmt_list_strs resolve bb.statements with
  | .error e => .error e
  | .ok ref_strs =>
    match bb.terminator.kind with
    | .call _ args _ _ _ =>
      match opr_list_strs resolve args with
      | .error e => .error e
      | .ok args_strs => .ok (ref_strs ++ args_strs)
    | _ => .ok ref_strs

/-- The per-block map inside the promoted case (`data_wrapper.rs` lines
215-229): for each basic block of the promoted body, in enumeration order,
the block's harvested strings joined with no separator. -/
def prom_body_strs (resolve : Resolver) : List BasicBlockData → Except ExtractErr (List String)
  | [] => .ok []
  | bb :: rest =>
    match get_bb_strs resolve bb with
    | .error e => .error e
    | .ok strs =>
      match prom_body_strs resolve rest with
      | .error e => .error e
      | .ok tail => .ok (String.join strs :: tail)

/-- Model of `str_const_from_operand` (`data_wrapper.rs` lines 175-270): a direct
`&str` slice constant is read out of its backing allocation (panic on an
out-of-bounds range) and decoded lossily; an unevaluated constant with a
promotion index present in the table resolves to the concatenation of its
blocks' harvested strings when that block list is nonempty; everything
else resolves to no string. -/
def str_const_from_operand (fuel : Nat) (opr : Operand) (prom : promoted_mir) :
    Except ExtractErr (Option String) :=
  match opr with
  | .constant c =>
    match c with
    | .val v t =>
      match t, v with
      | .ref .str, .slice data start stop =>
        match data.get_bytes start (stop - start) with
        | some bytes => .ok (some (String.mk (utf8Lossy bytes)))
        | none => .error (.allocOutOfBounds start (stop - start) data.bytes.length)
      | _, _ => .ok none
    | .ty cst =>
      match cst.val with
      | .unevaluated u =>
        match u.promoted with
        | some pidx =>
          match promGet prom pidx with
          | some promoted_body =>
            match fuel with
            | 0 => .ok none
            | f + 1 =>
              match prom_body_strs (fun o => str_const_from_operand f o prom)
                  promoted_body.basic_blocks with
              | .error e => .error e
              | .ok str_vec =>
                if str_vec.length > 0 then .ok (some (String.join str_vec))
                else .ok none
          | none => .ok none
        | none => .ok none
      | _ => .ok none
  | _ => .ok none

/-- Model of `get_bb_refed_strs` as in the source signature: harvest one block,
resolving operands with `str_const_from_operand` at the given fuel. -/
def get_bb_refed_strs (fuel : Nat) (bb : BasicBlockData) (prom : promoted_mir) :
    Except ExtractErr (List String) :=
  get_bb_strs (fun o => str_const_from_operand fuel o prom) bb

/-! ## Terminator kind tags, for stating totality of the conversion -/

/-- One tag per terminator kind of the closed set. -/
inductive TermTag where
  | goto | switchInt | resume | abort | ret | unreachable | drop
  | dropAndReplace | call | assert | yield | generatorDrop | falseEdge
  | falseUnwind | inlineAsm
deriving DecidableEq, Repr

/-- The tag of a compiler terminator kind. -/
def TerminatorKind.tag : TerminatorKind → TermTag
  | .goto _ => .goto
  | .switchInt _ _ => .switchInt
  | .resume => .resume
  | .abort => .abort
  | .ret => .ret
  | .unreachable => .unreachable
  | .drop _ _ _ => .drop
  | .dropAndReplace _ _ _ _ => .dropAndReplace
  | .call _ _ _ _ _ => .call
  | .assert _ _ _ _ => .assert
  | .yield _ _ _ => .yield
  | .generatorDrop => .generatorDrop
  | .falseEdge _ _ => .falseEdge
  | .falseUnwind _ _ => .falseUnwind
  | .inlineAsm _ => .inlineAsm

/-- The tag of a snapshot terminator variant. -/
def MirTerminator.tag : MirTerminator → TermTag
  | .goto _ => .goto
  | .switchInt _ => .switchInt
  | .resume => .resume
  | .abort => .abort
  | .ret => .ret
  | .unreachable => .unreachable
  | .drop _ _ => .drop
  | .dropAndReplace _ _ => .dropAndReplace
  | .call _ _ _ _ => .call
  | .assert _ _ _ => .assert
  | .yield _ _ _ => .yield
  | .generatorDrop => .generatorDrop
  | .falseEdge _ _ => .falseEdge
  | .falseUnwind _ _ => .falseUnwind
  | .inlineAsm _ => .inlineAsm

/-! ## Spec-side harvest description and fixtures -/

/-- The pure projection of a resolver: the recovered string when resolution
succeeds with one, nothing on "no string" (a failed pass yields nothing
here; it is only used under the hypothesis that the pass succeeded). -/
def resolveOpt (resolve : Resolver) (o : Operand) : Option String :=
  match resolve o with
  | .ok r => r
  | .error _ => none

/-- Modelled from the spec (section 4.4 wording, for comparison with the
source harvester): the string contributed by one assignment right-hand
side — resolution of the operand for use/repeat/cast, of the left operand
only for binary-op, and for an aggregate the join (no separator) of every
resolving element, nothing when none resolves; any other shape contributes
nothing. -/
def specRvalueEntry (resolve : Resolver) : Rvalue → Option String
  | .use opr => resolveOpt resolve opr
  | .«repeat» opr _ => resolveOpt resolve opr
  | .cast _ opr _ => resolveOpt resolve opr
  | .binaryOp _ ops => resolveOpt resolve ops.1
  | .aggregate _ elems =>
    if (elems.filterMap (resolveOpt resolve)).isEmpty then none
    else some (String.join (elems.filterMap (resolveOpt resolve)))
  | _ => none

/-- Modelled from the spec: the entry contributed by one statement — only
assignment statements contribute, through their right-hand side. -/
def specStmtEntry (resolve : Resolver) (stmt : Statement) : Option String :=
  match stmt.kind with
  | .assign b => specRvalueEntry resolve b.2
  | _ => none

/-- Modelled from the spec (section 4.4, for comparison with the source
harvester): first, in statement order, one entry per contributing
statement; then, if the terminator is a call, one entry per resolving call
argument, in argument order. -/
def specHarvest (resolve : Resolver) (bb : BasicBlockData) : List String :=
  bb.statements.filterMap (specStmtEntry resolve) ++
    (match bb.terminator.kind with
     | .call _ args _ _ _ => args.filterMap (resolveOpt resolve)
     | _ => [])

/-- The invariant of every error the pass can produce: it is an allocation
bounds violation, and a genuine one (the requested range really exceeds
the allocation's length). -/
def ExtractErr.genuine : ExtractErr → Prop
  | .allocOutOfBounds s n l => l < s + n

/-- Backing bytes of `b"hello"`. -/
def helloAlloc : Allocation := ⟨[104, 101, 108, 108, 111]⟩

/-- A direct `&str` constant over `b"hello"` at offset 0, length 5. -/
def helloOperand : Operand := .constant (.val (.slice helloAlloc 0 5) (.ref .str))

/-- A direct `&str` constant whose bytes open with the invalid byte 0xFF. -/
def invalidUtf8Operand : Operand :=
  .constant (.val (.slice ⟨[0xFF, 104, 105]⟩ 0 3) (.ref .str))

/-- An operand referencing promotion index 0. -/
def promRefOperand : Operand := .constant (.ty ⟨.unevaluated ⟨some 0⟩, .otherTy⟩)

/-- A block assigning the one-character string constant of byte `b`,
terminated by `return`. -/
def constStrBlock (b : Byte) : BasicBlockData :=
  ⟨[⟨.assign (⟨⟨0⟩, 0⟩, .use (.constant (.val (.slice ⟨[b]⟩ 0 1) (.ref .str))))⟩],
   ⟨.ret⟩, false⟩

/-- A promoted-body table whose single body has two blocks yielding "A"
then "B" in block-enumeration order. -/
def promTableAB : promoted_mir := [⟨[constStrBlock 65, constStrBlock 66]⟩]

/-- A promoted-body table whose single body has no basic blocks. -/
def promTableEmptyBody : promoted_mir := [⟨[]⟩]

/-- A block exercising both harvester halves: one aggregate assignment
whose three elements are the string constants "x", "y", "z", and a call
terminator with arguments "p" and "q" (and one non-resolving argument
between them). -/
def harvestDemoBlock : BasicBlockData :=
  ⟨[⟨.assign (⟨⟨0⟩, 0⟩, .aggregate 0
      [.constant (.val (.slice ⟨[120]⟩ 0 1) (.ref .str)),
       .constant (.val (.slice ⟨[121]⟩ 0 1) (.ref .str)),
       .constant (.val (.slice ⟨[122]⟩ 0 1) (.ref .str))])⟩],
   ⟨.call (.copy ⟨⟨1⟩, 0⟩)
      [.constant (.val (.slice ⟨[112]⟩ 0 1) (.ref .str)),
       .copy ⟨⟨2⟩, 0⟩,
       .constant (.val (.slice ⟨[113]⟩ 0 1) (.ref .str))]
      ⟨⟨3⟩, 0⟩ none none⟩, false⟩

/-- C4: the terminator converter is total over the closed set of terminator
kinds: every terminator kind is converted, and to the snapshot variant of
the same kind — exactly one variant per kind, no kind maps to no output. -/
theorem spec_c4 : ∀ k : TerminatorKind, (MirTerminator.fromKind k).tag = k.tag := by
  intro k
  cases k <;> rfl

/-- C5: index fidelity of the terminator converter — every block target in
a converted snapshot is the raw `u32` index of the original target block,
and every optional handler edge (`unwind`, `cleanup`, `drop`, `dest`) is
`none` exactly when the original terminator had none. -/
theorem spec_c5 :
    (∀ t, MirTerminator.fromKind (.goto t) = .goto t.as_u32)
    ∧ (∀ d st, MirTerminator.fromKind (.switchInt d st)
        = .switchInt (st.all_targets.map BasicBlock.as_u32))
    ∧ (∀ p t u, MirTerminator.fromKind (.drop p t u)
        = .drop t.as_u32 (u.map BasicBlock.as_u32)
        ∧ ((u.map BasicBlock.as_u32).isNone ↔ u.isNone))
    ∧ (∀ p v t u, MirTerminator.fromKind (.dropAndReplace p v t u)
        = .dropAndReplace t.as_u32 (u.map BasicBlock.as_u32)
        ∧ ((u.map BasicBlock.as_u32).isNone ↔ u.isNone))
    ∧ (∀ f a d t c, MirTerminator.fromKind (.call f a d t c)
        = .call f.debugFmt (a.map Operand.debugFmt)
            (t.map BasicBlock.as_u32) (c.map BasicBlock.as_u32)
        ∧ ((t.map BasicBlock.as_u32).isNone ↔ t.isNone)
        ∧ ((c.map BasicBlock.as_u32).isNone ↔ c.isNone))
    ∧ (∀ cond e t c, MirTerminator.fromKind (.assert cond e t c)
        = .assert cond.debugFmt t.as_u32 (c.map BasicBlock.as_u32)
        ∧ ((c.map BasicBlock.as_u32).isNone ↔ c.isNone))
    ∧ (∀ v r d, MirTerminator.fromKind (.yield v r d)
        = .yield v.debugFmt r.as_u32 (d.map BasicBlock.as_u32)
        ∧ ((d.map BasicBlock.as_u32).isNone ↔ d.isNone))
    ∧ (∀ rt it, MirTerminator.fromKind (.falseEdge rt it)
        = .falseEdge rt.as_u32 it.as_u32)
    ∧ (∀ rt u, MirTerminator.fromKind (.falseUnwind rt u)
        = .falseUnwind rt.as_u32 (u.map BasicBlock.as_u32)
        ∧ ((u.map BasicBlock.as_u32).isNone ↔ u.isNone))
    ∧ (∀ d, MirTerminator.fromKind (.inlineAsm d)
        = .inlineAsm (d.map BasicBlock.as_u32)
        ∧ ((d.map BasicBlock.as_u32).isNone ↔ d.isNone)) := by
  refine ⟨fun t => rfl, fun d st => rfl, ?_, ?_, ?_, ?_, ?_, fun rt it => rfl, ?_, ?_⟩
  · exact fun p t u => ⟨rfl, by cases u <;> simp⟩
  · exact fun p v t u => ⟨rfl, by cases u <;> simp⟩
  · exact fun f a d t c => ⟨rfl, by cases t <;> simp, by cases c <;> simp⟩
  · exact fun cond e t c => ⟨rfl, by cases c <;> simp⟩
  · exact fun v r d => ⟨rfl, by cases d <;> simp⟩
  · exact fun rt u => ⟨rfl, by cases u <;> simp⟩
  · exact fun d => ⟨rfl, by cases d <;> simp⟩

/-- C6: for every `SwitchInt` terminator the snapshot's `targets` field is
the full ordered branch-target list returned by `all_targets` (which
includes the trailing "otherwise" target), converted index by index with
no deduplication and no reordering. -/
theorem spec_c6 :
    ∀ (d : Operand) (st : SwitchTargets),
      MirTerminator.fromKind (.switchInt d st)
        = .switchInt (st.all_targets.map BasicBlock.as_u32)
      ∧ (st.all_targets.map BasicBlock.as_u32).length = st.all_targets.length
      ∧ ∀ i, (st.all_targets.map BasicBlock.as_u32).get? i
          = (st.all_targets.get? i).map BasicBlock.as_u32 := by
  intro d st
  refine ⟨rfl, by simp, fun i => ?_⟩
  simp [List.get?_eq_getElem?, List.getElem?_map]

/-- C9: the statement converter is total — every statement kind yields one
descriptive string; the five recognized kinds receive their kind-tagged
rendering and every other kind falls back to the generic textual dump. -/
theorem spec_c9 :
    (∀ b, MirStatement.fromKind (.assign b)
        = ⟨"assign " ++ b.1.debugFmt ++ " = " ++ b.2.debugFmt⟩)
    ∧ (∀ b, MirStatement.fromKind (.fakeRead b) = ⟨"fake " ++ b.2.debugFmt⟩)
    ∧ (∀ l, MirStatement.fromKind (.storageLive l) = ⟨"sl " ++ l.debugFmt⟩)
    ∧ (∀ l, MirStatement.fromKind (.storageDead l) = ⟨"sd " ++ l.debugFmt⟩)
    ∧ (∀ p v, MirStatement.fromKind (.setDiscriminant p v)
        = ⟨"set " ++ p.debugFmt ++ " " ++ toString v⟩)
    ∧ MirStatement.fromKind .retag = ⟨StatementKind.retag.debugFmt⟩
    ∧ MirStatement.fromKind .ascribeUserType = ⟨StatementKind.ascribeUserType.debugFmt⟩
    ∧ MirStatement.fromKind .coverage = ⟨StatementKind.coverage.debugFmt⟩
    ∧ MirStatement.fromKind .copyNonOverlapping = ⟨StatementKind.copyNonOverlapping.debugFmt⟩
    ∧ MirStatement.fromKind .nop = ⟨StatementKind.nop.debugFmt⟩ := by
  exact ⟨fun b => rfl, fun b => rfl, fun l => rfl, fun l => rfl, fun p v => rfl,
    rfl, rfl, rfl, rfl, rfl⟩

/-- Any evaluated (`Val`) constant that is not a `&str`-typed slice
resolves to no string: the resolver's slice decode is gated on the type
being a reference to `str` and the value being a slice. -/
theorem strConst_val_none (fuel : Nat) (prom : promoted_mir) (v : ConstValue)
    (t : TyKind) (h : ∀ d s e, ¬(t = .ref .str ∧ v = .slice d s e)) :
    str_const_from_operand fuel (.constant (.val v t)) prom = .ok none := by
  cases v with
  | scalar n => simp [str_const_from_operand]
  | byRef d o => simp [str_const_from_operand]
  | slice d s e =>
    cases t <;> try simp [str_const_from_operand]
    case ref inner =>
      have hi : inner ≠ .str := fun hstr => h d s e ⟨by rw [hstr], rfl⟩
      cases inner <;> simp_all [str_const_from_operand]

/-- C1: a direct `&str`-typed byte-slice constant with an in-bounds range
resolves to exactly the lossy UTF-8 decoding of the `stop - start` bytes
read at offset `start` of its backing allocation (decoding is total, so it
never fails); in particular `b"hello"` at offset 0 length 5 resolves to
"hello", and a constant opening with the invalid byte 0xFF resolves to a
string containing a replacement character. -/
theorem spec_c1 :
    (∀ (fuel : Nat) (prom : promoted_mir) (data : Allocation) (start stop : Nat),
      start + (stop - start) ≤ data.bytes.length →
      str_const_from_operand fuel
          (.constant (.val (.slice data start stop) (.ref .str))) prom
        = .ok (some (String.mk (utf8Lossy ((data.bytes.drop start).take (stop - start))))))
    ∧ str_const_from_operand 0 helloOperand [] = .ok (some "hello")
    ∧ ∃ s, str_const_from_operand 0 invalidUtf8Operand [] = .ok (some s)
        ∧ replChar ∈ s.data := by
  refine ⟨?_, by decide, ⟨String.mk (utf8Lossy [0xFF, 104, 105]), by decide, by decide⟩⟩
  intro fuel prom data start stop h
  simp [str_const_from_operand, Allocation.get_bytes, h]

/-- Closed instance of C1's universally quantified part at the `b"hello"`
constant. -/
theorem spec_c1_witness :
    0 + (5 - 0) ≤ (Allocation.bytes ⟨[104, 101, 108, 108, 111]⟩).length
    ∧ str_const_from_operand 0
        (.constant (.val (.slice ⟨[104, 101, 108, 108, 111]⟩ 0 5) (.ref .str))) []
      = .ok (some (String.mk (utf8Lossy
          (((Allocation.bytes ⟨[104, 101, 108, 108, 111]⟩).drop 0).take (5 - 0))))) :=
  ⟨by decide, spec_c1.1 0 [] ⟨[104, 101, 108, 108, 111]⟩ 0 5 (by decide)⟩

/-- C8: a promotion reference with no matching table entry resolves to no
string without failing the pass, and so do every unsupported constant kind
(numeric scalars, by-ref aggregates, non-unevaluated type-level constants,
unevaluated constants without a promotion index) and non-constant
operands. -/
theorem spec_c8 :
    (∀ (fuel : Nat) (prom : promoted_mir) (pidx : Nat) (τ : TyKind),
      promGet prom pidx = none →
      str_const_from_operand fuel
          (.constant (.ty ⟨.unevaluated ⟨some pidx⟩, τ⟩)) prom = .ok none)
    ∧ (∀ (fuel : Nat) (prom : promoted_mir) (τ : TyKind),
      str_const_from_operand fuel
          (.constant (.ty ⟨.unevaluated ⟨none⟩, τ⟩)) prom = .ok none)
    ∧ (∀ (fuel : Nat) (prom : promoted_mir) (n : Nat) (τ : TyKind),
      str_const_from_operand fuel (.constant (.val (.scalar n) τ)) prom = .ok none)
    ∧ (∀ (fuel : Nat) (prom : promoted_mir) (data : Allocation) (off : Nat) (τ : TyKind),
      str_const_from_operand fuel (.constant (.val (.byRef data off) τ)) prom = .ok none)
    ∧ (∀ (fuel : Nat) (prom : promoted_mir) (v : ConstValue) (τ : TyKind),
      str_const_from_operand fuel (.constant (.ty ⟨.value v, τ⟩)) prom = .ok none)
    ∧ (∀ (fuel : Nat) (prom : promoted_mir) (τ : TyKind),
      str_const_from_operand fuel (.constant (.ty ⟨.param, τ⟩)) prom = .ok none)
    ∧ (∀ (fuel : Nat) (prom : promoted_mir) (τ : TyKind),
      str_const_from_operand fuel (.constant (.ty ⟨.otherConst, τ⟩)) prom = .ok none)
    ∧ (∀ (fuel : Nat) (prom : promoted_mir) (p : Place),
      str_const_from_operand fuel (.copy p) prom = .ok none)
    ∧ (∀ (fuel : Nat) (prom : promoted_mir) (p : Place),
      str_const_from_operand fuel (.move p) prom = .ok none) := by
  refine ⟨?_, fun fuel prom τ => by simp [str_const_from_operand],
    fun fuel prom n τ => by simp [str_const_from_operand],
    fun fuel prom data off τ => by simp [str_const_from_operand],
    fun fuel prom v τ => by simp [str_const_from_operand],
    fun fuel prom τ => by simp [str_const_from_operand],
    fun fuel prom τ => by simp [str_const_from_operand],
    fun fuel prom p => by simp [str_const_from_operand],
    fun fuel prom p => by simp [str_const_from_operand]⟩
  intro fuel prom pidx τ h
  simp [str_const_from_operand, h]

/-- Closed instance of C8's missing-promotion-entry part: index 3 has no
entry in a one-entry table. -/
theorem spec_c8_witness :
    promGet promTableAB 3 = none
    ∧ str_const_from_operand 5
        (.constant (.ty ⟨.unevaluated ⟨some 3⟩, .otherTy⟩)) promTableAB = .ok none :=
  ⟨by decide, spec_c8.1 5 promTableAB 3 .otherTy (by decide)⟩

/-- C10: a byte-slice constant whose reference type does not point to
`str` — for example a byte-string constant of type reference-to-slice-of-u8
— resolves to no string, as does a slice constant whose type is not a
reference at all: only `&str`-typed slices are decoded. -/
theorem spec_c10 :
    (∀ (fuel : Nat) (prom : promoted_mir) (data : Allocation) (start stop : Nat)
        (inner : TyKind), inner ≠ .str →
      str_const_from_operand fuel
          (.constant (.val (.slice data start stop) (.ref inner))) prom = .ok none)
    ∧ (∀ (fuel : Nat) (prom : promoted_mir) (data : Allocation) (start stop : Nat)
        (t : TyKind), (∀ inner, t ≠ .ref inner) →
      str_const_from_operand fuel
          (.constant (.val (.slice data start stop) t)) prom = .ok none) := by
  constructor
  · intro fuel prom data start stop inner hinner
    refine strConst_val_none fuel prom _ _ ?_
    rintro d s e ⟨ht, -⟩
    exact hinner (by injection ht)
  · intro fuel prom data start stop t ht
    refine strConst_val_none fuel prom _ _ ?_
    rintro d s e ⟨rfl, -⟩
    exact ht _ rfl

/-- Closed instance of C10: the byte-string constant `b"hello"` of type
reference-to-slice-of-u8 resolves to no string even though its backing
representation is the same slice-in-allocation shape as a string. -/
theorem spec_c10_witness :
    (TyKind.slice .uint ≠ .str)
    ∧ str_const_from_operand 0
        (.constant (.val (.slice helloAlloc 0 5) (.ref (.slice .uint)))) [] = .ok none :=
  ⟨by decide, spec_c10.1 0 [] helloAlloc 0 5 (.slice .uint) (by decide)⟩

/-- C2 as stated is false: for a promotion whose table entry is a body
with no basic blocks, the resolver returns no string (the `len() > 0`
guard fails and the code falls through to `None`) instead of the empty
string the claim requires ("resolved, never absent"). -/
theorem spec_c2_counterexample :
    promGet promTableEmptyBody 0 = some ⟨[]⟩
    ∧ str_const_from_operand 1 promRefOperand promTableEmptyBody = .ok none
    ∧ str_const_from_operand 1 promRefOperand promTableEmptyBody ≠ .ok (some "") := by
  refine ⟨by decide, by decide, by decide⟩

/-- C2 amended: an unevaluated constant whose promotion index has a table
entry resolves to the concatenation, in block-enumeration order with no
separator, of the per-block harvested strings — which is `some` (possibly
of the empty string) whenever the promoted body has at least one basic
block, and `none` when the promoted body has no basic blocks at all.  The
first conjunct ties the per-block string list to the block list one-to-one
(in particular blocks yielding "A" then "B" give "AB", not "BA", shown in
the witness). -/
theorem spec_c2 :
    (∀ (resolve : Resolver) (bbs : List BasicBlockData) (parts : List String),
      prom_body_strs resolve bbs = .ok parts → parts.length = bbs.length)
    ∧ (∀ (fuel : Nat) (prom : promoted_mir) (pidx : Nat) (τ : TyKind)
        (body : Body) (parts : List String),
      promGet prom pidx = some body →
      prom_body_strs (fun o => str_const_from_operand fuel o prom) body.basic_blocks
        = .ok parts →
      str_const_from_operand (fuel + 1)
          (.constant (.ty ⟨.unevaluated ⟨some pidx⟩, τ⟩)) prom
        = if parts.length > 0 then .ok (some (String.join parts)) else .ok none) := by
  constructor
  · intro resolve bbs
    induction bbs with
    | nil => intro parts h; simp only [prom_body_strs] at h; cases h; rfl
    | cons bb rest ih =>
      intro parts h
      simp only [prom_body_strs] at h
      cases hg : get_bb_strs resolve bb with
      | error e => rw [hg] at h; cases h
      | ok strs =>
        rw [hg] at h
        cases ht : prom_body_strs resolve rest with
        | error e => rw [ht] at h; cases h
        | ok tail => rw [ht] at h; cases h; simp [ih tail ht]
  · intro fuel prom pidx τ body parts hget hparts
    simp [str_const_from_operand, hget, hparts]

/-- Closed instance of C2's amended promoted-resolution at a two-block
promoted body yielding "A" then "B": the result is "AB", in
block-enumeration order. -/
theorem spec_c2_witness :
    promGet promTableAB 0 = some ⟨[constStrBlock 65, constStrBlock 66]⟩
    ∧ prom_body_strs (fun o => str_const_from_operand 0 o promTableAB)
        (Body.basic_blocks ⟨[constStrBlock 65, constStrBlock 66]⟩) = .ok ["A", "B"]
    ∧ str_const_from_operand 1
        (.constant (.ty ⟨.unevaluated ⟨some 0⟩, .otherTy⟩)) promTableAB
      = if (["A", "B"] : List String).length > 0
          then .ok (some (String.join ["A", "B"])) else .ok none :=
  ⟨by decide, by decide,
    spec_c2.2 0 promTableAB 0 .otherTy ⟨[constStrBlock 65, constStrBlock 66]⟩
      ["A", "B"] (by decide) (by decide)⟩

/-- When the resolved-argument collection succeeds, it is exactly the
`filterMap` of the pure resolution over the operand list. -/
theorem opr_list_strs_ok (resolve : Resolver) :
    ∀ (oprs : List Operand) (l : List String),
      opr_list_strs resolve oprs = .ok l → l = oprs.filterMap (resolveOpt resolve) := by
  intro oprs
  induction oprs with
  | nil => intro l h; simp only [opr_list_strs] at h; cases h; rfl
  | cons opr rest ih =>
    intro l h
    simp only [opr_list_strs] at h
    cases hr : resolve opr with
    | error e => rw [hr] at h; cases h
    | ok r =>
      cases r with
      | none =>
        rw [hr] at h
        simp [List.filterMap_cons, resolveOpt, hr, ih l h]
      | some s =>
        rw [hr] at h
        cases ht : opr_list_strs resolve rest with
        | error e => rw [ht] at h; cases h
        | ok tail =>
          rw [ht] at h; cases h
          simp [List.filterMap_cons, resolveOpt, hr, ih tail ht]

/-- When the right-hand-side resolution succeeds, its result is the
spec-side per-shape description. -/
theorem rvalue_str_ok (resolve : Resolver) (rv : Rvalue) (r : Option String)
    (h : rvalue_str resolve rv = .ok r) : r = specRvalueEntry resolve rv := by
  cases rv with
  | use opr =>
    simp only [rvalue_str] at h
    simp [specRvalueEntry, resolveOpt, h]
  | «repeat» opr n =>
    simp only [rvalue_str] at h
    simp [specRvalueEntry, resolveOpt, h]
  | cast k opr t =>
    simp only [rvalue_str] at h
    simp [specRvalueEntry, resolveOpt, h]
  | binaryOp op ops =>
    simp only [rvalue_str] at h
    simp [specRvalueEntry, resolveOpt, h]
  | aggregate k elems =>
    simp only [rvalue_str] at h
    cases hv : opr_list_strs resolve elems with
    | error e => rw [hv] at h; cases h
    | ok str_vec =>
      have hm := opr_list_strs_ok resolve elems str_vec hv
      rw [hv] at h
      by_cases hlen : str_vec.length > 0
      · rw [show (match (Except.ok str_vec : Except ExtractErr (List String)) with
            | .error e => Except.error e
            | .ok str_vec => if str_vec.length > 0
                then Except.ok (some (String.join str_vec)) else Except.ok none)
            = (if str_vec.length > 0
                then Except.ok (some (String.join str_vec)) else Except.ok none) from rfl,
          if_pos hlen] at h
        cases h
        simp only [specRvalueEntry]
        rw [← hm]
        cases str_vec with
        | nil => simp at hlen
        | cons a as => rfl
      · rw [show (match (Except.ok str_vec : Except ExtractErr (List String)) with
            | .error e => Except.error e
            | .ok str_vec => if str_vec.length > 0
                then Except.ok (some (String.join str_vec)) else Except.ok none)
            = (if str_vec.length > 0
                then Except.ok (some (String.join str_vec)) else Except.ok none) from rfl,
          if_neg hlen] at h
        cases h
        simp only [specRvalueEntry]
        rw [← hm]
        have hnil : str_vec = [] := List.length_eq_zero.mp (by omega)
        rw [hnil]
        rfl
  | checkedBinaryOp op ops => simp only [rvalue_str] at h; cases h; rfl
  | unaryOp op opr => simp only [rvalue_str] at h; cases h; rfl
  | ref p => simp only [rvalue_str] at h; cases h; rfl
  | len p => simp only [rvalue_str] at h; cases h; rfl
  | discriminant p => simp only [rvalue_str] at h; cases h; rfl
  | otherRvalue => simp only [rvalue_str] at h; cases h; rfl

/-- When the statement half of the harvester succeeds, it is exactly the
`filterMap` of the spec-side per-statement entry. -/
theorem stmt_list_strs_ok (resolve : Resolver) :
    ∀ (stmts : List Statement) (l : List String),
      stmt_list_strs resolve stmts = .ok l
        → l = stmts.filterMap (specStmtEntry resolve) := by
  intro stmts
  induction stmts with
  | nil => intro l h; simp only [stmt_list_strs] at h; cases h; rfl
  | cons stmt rest ih =>
    intro l h
    rcases stmt with ⟨k⟩
    cases k with
    | assign b =>
      simp only [stmt_list_strs] at h
      cases hr : rvalue_str resolve b.2 with
      | error e => rw [hr] at h; cases h
      | ok r =>
        have hspec := rvalue_str_ok resolve b.2 r hr
        rw [hr] at h
        cases r with
        | none =>
          simp [List.filterMap_cons, specStmtEntry, ← hspec, ih l h]
        | some s =>
          cases ht : stmt_list_strs resolve rest with
          | error e => rw [ht] at h; cases h
          | ok tail =>
            rw [ht] at h; cases h
            simp [List.filterMap_cons, specStmtEntry, ← hspec, ih tail ht]
    | fakeRead b =>
      simp only [stmt_list_strs] at h
      simp [List.filterMap_cons, specStmtEntry, ih l h]
    | storageLive a =>
      simp only [stmt_list_strs] at h
      simp [List.filterMap_cons, specStmtEntry, ih l h]
    | storageDead a =>
      simp only [stmt_list_strs] at h
      simp [List.filterMap_cons, specStmtEntry, ih l h]
    | setDiscriminant p v =>
      simp only [stmt_list_strs] at h
      simp [List.filterMap_cons, specStmtEntry, ih l h]
    | retag =>
      simp only [stmt_list_strs] at h
      simp [List.filterMap_cons, specStmtEntry, ih l h]
    | ascribeUserType =>
      simp only [stmt_list_strs] at h
      simp [List.filterMap_cons, specStmtEntry, ih l h]
    | coverage =>
      simp only [stmt_list_strs] at h
      simp [List.filterMap_cons, specStmtEntry, ih l h]
    | copyNonOverlapping =>
      simp only [stmt_list_strs] at h
      simp [List.filterMap_cons, specStmtEntry, ih l h]
    | nop =>
      simp only [stmt_list_strs] at h
      simp [List.filterMap_cons, specStmtEntry, ih l h]

/-- C3: whenever the block string harvester completes without a fatal
error, its output is exactly: in statement order, one entry per assignment
whose right-hand side is use, repeat, cast, binary-op (left operand only)
or aggregate (all resolving elements joined into one entry) and whose
resolution yields a string; followed, when the terminator is a call, by
one separate entry per resolving call argument in argument order — other
right-hand-side shapes and non-resolving operands contribute nothing. -/
theorem spec_c3 :
    ∀ (fuel : Nat) (bb : BasicBlockData) (prom : promoted_mir) (l : List String),
      get_bb_refed_strs fuel bb prom = .ok l
        → l = specHarvest (fun o => str_const_from_operand fuel o prom) bb := by
  intro fuel bb prom l h
  obtain ⟨stmts, ⟨tk⟩, cl⟩ := bb
  simp only [get_bb_refed_strs, get_bb_strs] at h
  cases hs : stmt_list_strs (fun o => str_const_from_operand fuel o prom) stmts with
  | error e => rw [hs] at h; cases h
  | ok ref_strs =>
    rw [hs] at h
    have hstmts := stmt_list_strs_ok _ _ _ hs
    cases tk
    case call f args d tg cl2 =>
      dsimp only at h
      cases ha : opr_list_strs (fun o => str_const_from_operand fuel o prom) args with
      | error e => rw [ha] at h; cases h
      | ok args_strs =>
        rw [ha] at h; cases h
        have hargs := opr_list_strs_ok _ _ _ ha
        simp [specHarvest, hstmts, hargs]
    all_goals (cases h; simp [specHarvest, hstmts])

/-- Closed instance of C3 at a block with a three-element string aggregate
("x", "y", "z" joined to one entry "xyz") and a two-string-argument call
("p" and "q" as separate entries). -/
theorem spec_c3_witness :
    get_bb_refed_strs 0 harvestDemoBlock [] = .ok ["xyz", "p", "q"]
    ∧ ["xyz", "p", "q"]
      = specHarvest (fun o => str_const_from_operand 0 o []) harvestDemoBlock :=
  ⟨by decide, spec_c3 0 harvestDemoBlock [] ["xyz", "p", "q"] (by decide)⟩

/-- Errors of the evaluated-constant branch are genuine bounds violations. -/
theorem strConst_val_error (fuel : Nat) (prom : promoted_mir) (v : ConstValue)
    (t : TyKind) (e : ExtractErr)
    (h : str_const_from_operand fuel (.constant (.val v t)) prom = .error e) :
    e.genuine := by
  rcases v with n | ⟨data, start, stop⟩ | ⟨d, o⟩
  · simp [str_const_from_operand] at h
  · by_cases hstr : t = .ref .str
    · subst hstr
      simp only [str_const_from_operand] at h
      by_cases hc : start + (stop - start) ≤ data.bytes.length
      · have hg : data.get_bytes start (stop - start)
            = some ((data.bytes.drop start).take (stop - start)) := by
          simp [Allocation.get_bytes, hc]
        rw [hg] at h; cases h
      · have hg : data.get_bytes start (stop - start) = none := by
          simp [Allocation.get_bytes, hc]
        rw [hg] at h; cases h
        simp only [ExtractErr.genuine]
        omega
    · rw [strConst_val_none fuel prom _ t
        (fun d s e2 hde => hstr hde.1)] at h
      cases h
  · simp [str_const_from_operand] at h

/-- Errors propagate unchanged through the argument collection. -/
theorem opr_list_strs_error (resolve : Resolver)
    (hres : ∀ o e, resolve o = .error e → ExtractErr.genuine e) :
    ∀ (oprs : List Operand) (e : ExtractErr),
      opr_list_strs resolve oprs = .error e → ExtractErr.genuine e := by
  intro oprs
  induction oprs with
  | nil => intro e h; simp [opr_list_strs] at h
  | cons opr rest ih =>
    intro e h
    simp only [opr_list_strs] at h
    cases hr : resolve opr with
    | error e2 => rw [hr] at h; cases h; exact hres opr _ hr
    | ok r =>
      rw [hr] at h
      cases r with
      | none => exact ih e h
      | some s =>
        cases ht : opr_list_strs resolve rest with
        | error e2 => rw [ht] at h; cases h; exact ih _ ht
        | ok tail => rw [ht] at h; cases h

/-- Errors propagate unchanged through right-hand-side resolution. -/
theorem rvalue_str_error (resolve : Resolver)
    (hres : ∀ o e, resolve o = .error e → ExtractErr.genuine e) :
    ∀ (rv : Rvalue) (e : ExtractErr),
      rvalue_str resolve rv = .error e → ExtractErr.genuine e := by
  intro rv e h
  cases rv with
  | use opr => exact hres opr e h
  | «repeat» opr n => exact hres opr e h
  | cast k opr t => exact hres opr e h
  | binaryOp op ops => exact hres ops.1 e h
  | aggregate k elems =>
    simp only [rvalue_str] at h
    cases hv : opr_list_strs resolve elems with
    | error e2 => rw [hv] at h; cases h; exact opr_list_strs_error resolve hres elems _ hv
    | ok str_vec =>
      rw [hv] at h
      dsimp only at h
      split at h <;> cases h
  | checkedBinaryOp op ops => simp [rvalue_str] at h
  | unaryOp op opr => simp [rvalue_str] at h
  | ref p => simp [rvalue_str] at h
  | len p => simp [rvalue_str] at h
  | discriminant p => simp [rvalue_str] at h
  | otherRvalue => simp [rvalue_str] at h

/-- Errors propagate unchanged through the statement harvest. -/
theorem stmt_list_strs_error (resolve : Resolver)
    (hres : ∀ o e, resolve o = .error e → ExtractErr.genuine e) :
    ∀ (stmts : List Statement) (e : ExtractErr),
      stmt_list_strs resolve stmts = .error e → ExtractErr.genuine e := by
  intro stmts
  induction stmts with
  | nil => intro e h; simp [stmt_list_strs] at h
  | cons stmt rest ih =>
    intro e h
    rcases stmt with ⟨k⟩
    cases k with
    | assign b =>
      simp only [stmt_list_strs] at h
      cases hr : rvalue_str resolve b.2 with
      | error e2 => rw [hr] at h; cases h; exact rvalue_str_error resolve hres b.2 _ hr
      | ok r =>
        rw [hr] at h
        cases r with
        | none => exact ih e h
        | some s =>
          cases ht : stmt_list_strs resolve rest with
          | error e2 => rw [ht] at h; cases h; exact ih _ ht
          | ok tail => rw [ht] at h; cases h
    | fakeRead b => exact ih e h
    | storageLive a => exact ih e h
    | storageDead a => exact ih e h
    | setDiscriminant p v => exact ih e h
    | retag => exact ih e h
    | ascribeUserType => exact ih e h
    | coverage => exact ih e h
    | copyNonOverlapping => exact ih e h
    | nop => exact ih e h

/-- Errors propagate unchanged through a single block's harvest. -/
theorem get_bb_strs_error (resolve : Resolver)
    (hres : ∀ o e, resolve o = .error e → ExtractErr.genuine e) :
    ∀ (bb : BasicBlockData) (e : ExtractErr),
      get_bb_strs resolve bb = .error e → ExtractErr.genuine e := by
  intro bb e h
  obtain ⟨stmts, ⟨tk⟩, cl⟩ := bb
  simp only [get_bb_strs] at h
  cases hs : stmt_list_strs resolve stmts with
  | error e2 => rw [hs] at h; cases h; exact stmt_list_strs_error resolve hres stmts _ hs
  | ok ref_strs =>
    rw [hs] at h
    cases tk
    case call f args d tg cl2 =>
      dsimp only at h
      cases ha : opr_list_strs resolve args with
      | error e2 => rw [ha] at h; cases h; exact opr_list_strs_error resolve hres args _ ha
      | ok args_strs => rw [ha] at h; cases h
    all_goals cases h

/-- Errors propagate unchanged through the promoted body's block map. -/
theorem prom_body_strs_error (resolve : Resolver)
    (hres : ∀ o e, resolve o = .error e → ExtractErr.genuine e) :
    ∀ (bbs : List BasicBlockData) (e : ExtractErr),
      prom_body_strs resolve bbs = .error e → ExtractErr.genuine e := by
  intro bbs
  induction bbs with
  | nil => intro e h; simp [prom_body_strs] at h
  | cons bb rest ih =>
    intro e h
    simp only [prom_body_strs] at h
    cases hg : get_bb_strs resolve bb with
    | error e2 => rw [hg] at h; cases h; exact get_bb_strs_error resolve hres bb _ hg
    | ok strs =>
      rw [hg] at h
      cases ht : prom_body_strs resolve rest with
      | error e2 => rw [ht] at h; cases h; exact ih _ ht
      | ok tail => rw [ht] at h; cases h

/-- Every error the resolver ever produces, at any recursion depth, is a
genuine allocation bounds violation. -/
theorem strConst_error :
    ∀ (fuel : Nat) (prom : promoted_mir) (opr : Operand) (e : ExtractErr),
      str_const_from_operand fuel opr prom = .error e → ExtractErr.genuine e := by
  intro fuel
  induction fuel with
  | zero =>
    intro prom opr e h
    rcases opr with p | p | c
    · simp [str_const_from_operand] at h
    · simp [str_const_from_operand] at h
    · rcases c with ⟨v, t⟩ | cst
      · exact strConst_val_error 0 prom v t e h
      · rcases cst with ⟨val, ty⟩
        rcases val with ⟨pidx?⟩ | v2 | _ | _
        · rcases pidx? with _ | pidx
          · simp [str_const_from_operand] at h
          · cases hg : promGet prom pidx with
            | none => simp [str_const_from_operand, hg] at h
            | some body => simp [str_const_from_operand, hg] at h
        · simp [str_const_from_operand] at h
        · simp [str_const_from_operand] at h
        · simp [str_const_from_operand] at h
  | succ f ih =>
    intro prom opr e h
    rcases opr with p | p | c
    · simp [str_const_from_operand] at h
    · simp [str_const_from_operand] at h
    · rcases c with ⟨v, t⟩ | cst
      · exact strConst_val_error (f + 1) prom v t e h
      · rcases cst with ⟨val, ty⟩
        rcases val with ⟨pidx?⟩ | v2 | _ | _
        · rcases pidx? with _ | pidx
          · simp [str_const_from_operand] at h
          · cases hg : promGet prom pidx with
            | none => simp [str_const_from_operand, hg] at h
            | some body =>
              simp only [str_const_from_operand, hg] at h
              cases hp : prom_body_strs (fun o => str_const_from_operand f o prom)
                  body.basic_blocks with
              | error e2 =>
                rw [hp] at h; cases h
                exact prom_body_strs_error _ (fun o e2 h2 => ih prom o e2 h2) _ _ hp
              | ok str_vec =>
                rw [hp] at h
                dsimp only at h
                split at h <;> cases h
        · simp [str_const_from_operand] at h
        · simp [str_const_from_operand] at h
        · simp [str_const_from_operand] at h

/-- C7: an out-of-bounds byte range on a direct string constant fails the
pass with the (genuine) allocation-bounds fatal error — not an empty and
not an absent string; an in-bounds range always yields a string; and every
failure the resolver can ever produce, at any depth, is such a bounds
violation — its only failure mode. -/
theorem spec_c7 :
    (∀ (fuel : Nat) (prom : promoted_mir) (data : Allocation) (start stop : Nat),
      data.bytes.length < start + (stop - start) →
      str_const_from_operand fuel
          (.constant (.val (.slice data start stop) (.ref .str))) prom
        = .error (.allocOutOfBounds start (stop - start) data.bytes.length))
    ∧ (∀ (fuel : Nat) (prom : promoted_mir) (data : Allocation) (start stop : Nat),
      start + (stop - start) ≤ data.bytes.length →
      ∃ s, str_const_from_operand fuel
          (.constant (.val (.slice data start stop) (.ref .str))) prom = .ok (some s))
    ∧ (∀ (fuel : Nat) (opr : Operand) (prom : promoted_mir) (e : ExtractErr),
      str_const_from_operand fuel opr prom = .error e →
      ∃ s n len, e = .allocOutOfBounds s n len ∧ len < s + n) := by
  refine ⟨?_, ?_, ?_⟩
  · intro fuel prom data start stop h
    have hg : data.get_bytes start (stop - start) = none := by
      simp [Allocation.get_bytes]
      omega
    simp [str_const_from_operand, hg]
  · intro fuel prom data start stop h
    have hg : data.get_bytes start (stop - start)
        = some ((data.bytes.drop start).take (stop - start)) := by
      simp [Allocation.get_bytes, h]
    exact ⟨String.mk (utf8Lossy ((data.bytes.drop start).take (stop - start))),
      by simp [str_const_from_operand, hg]⟩
  · intro fuel opr prom e h
    have hgen := strConst_error fuel prom opr e h
    rcases e with ⟨s, n, len⟩
    exact ⟨s, n, len, rfl, hgen⟩

/-- Closed instances of C7: reading 5 bytes out of a 1-byte allocation
fails with the bounds error; reading 1 byte of it succeeds. -/
theorem spec_c7_witness :
    ((Allocation.bytes ⟨[104]⟩).length < 0 + (5 - 0)
      ∧ str_const_from_operand 0
          (.constant (.val (.slice ⟨[104]⟩ 0 5) (.ref .str))) []
        = .error (.allocOutOfBounds 0 (5 - 0) (Allocation.bytes ⟨[104]⟩).length))
    ∧ (0 + (1 - 0) ≤ (Allocation.bytes ⟨[104]⟩).length
      ∧ ∃ s, str_const_from_operand 0
          (.constant (.val (.slice ⟨[104]⟩ 0 1) (.ref .str))) [] = .ok (some s)) :=
  ⟨⟨by decide, spec_c7.1 0 [] ⟨[104]⟩ 0 5 (by decide)⟩,
   ⟨by decide, spec_c7.2.1 0 [] ⟨[104]⟩ 0 1 (by decide)⟩⟩

/-- Sanity instances of the lossy decoder: plain ASCII round-trips, an
invalid lead byte or a truncated sequence becomes one replacement
character, an out-of-range continuation is replaced with scanning resuming
at the offending byte, and a valid multi-byte character decodes. -/
theorem utf8Lossy_examples :
    utf8Lossy [104, 101, 108, 108, 111] = ['h', 'e', 'l', 'l', 'o']
    ∧ utf8Lossy [0xFF] = [replChar]
    ∧ utf8Lossy [0xE2, 0x82, 0xAC] = ['€']
    ∧ utf8Lossy [0xE0, 0x80, 0x61] = [replChar, replChar, 'a']
    ∧ utf8Lossy [0xC3] = [replChar] :=
  ⟨by decide, by decide, by decide, by decide, by decide⟩
